import Mathlib

/-!
# Verification of the film-fetcher fetch-merge-normalize pipeline

Shallow embedding of the core of the `film-fetcher` repository:
the filter engine (`matchesFilters`), the merge engine (`mergeMovieData`),
the cleaning step (`cleanMovieData`), the three source-adapter `normalize`
steps, the adapters' rate limiting and request error handling, and the
orchestrator workflows (`fetchMoviesByTitles`, `discoverMovies`,
`enrichMovieData`).

JavaScript records are loosely typed, and `mergeMovieData` iterates over the
dynamic key set of its inputs, so records are modelled as insertion-ordered
association lists of string keys to a JavaScript-like value type `JSValue`.
I/O is modelled by passing the outcome of each outbound HTTP call as an
explicit `Except`-valued oracle; a thrown JavaScript error is an
`Except.error`.
-/

/-- A JavaScript value, as used by the records flowing through the pipeline.
Numbers are modelled as rationals plus an explicit `nan`; objects are
insertion-ordered association lists (JavaScript objects cannot hold a
duplicate key). Object identity is not modelled: values are compared
structurally, which agrees with JavaScript equality on the primitive values
the pipeline compares. -/
inductive JSValue where
  | null
  | undefined
  | nan
  | bool (b : Bool)
  | num (q : Rat)
  | str (s : String)
  | arr (xs : List JSValue)
  | obj (fields : List (String × JSValue))
deriving Repr

/-- A JavaScript object: an insertion-ordered association list. -/
abbrev JSObj := List (String × JSValue)

/-- JavaScript truthiness: `null`, `undefined`, `NaN`, `false`, `0` and the
empty string are falsy; every other value (including empty arrays and
objects) is truthy. -/
def truthy : JSValue → Bool
  | .null => false
  | .undefined => false
  | .nan => false
  | .bool b => b
  | .num q => !(q == 0)
  | .str s => !(s == "")
  | _ => true

/-- Is the value an array (`Array.isArray`)? -/
def isArr : JSValue → Bool
  | .arr _ => true
  | _ => false

/-- The guard of the merge loop: `v !== null && v !== undefined && v !== ''`. -/
def presentVal : JSValue → Bool
  | .null => false
  | .undefined => false
  | .str "" => false
  | _ => true

mutual

/-- Structural value equality, with `nan` equal to itself: this is
JavaScript SameValueZero, the comparison used by `Array.prototype.includes`.
Objects are compared structurally rather than by reference; the pipeline
only ever compares primitive values. -/
def jsEqb : JSValue → JSValue → Bool
  | .null, .null => true
  | .undefined, .undefined => true
  | .nan, .nan => true
  | .bool a, .bool b => a == b
  | .num a, .num b => a == b
  | .str a, .str b => a == b
  | .arr xs, .arr ys => jsEqbList xs ys
  | .obj xs, .obj ys => jsEqbObj xs ys
  | _, _ => false

/-- Element-wise list equality for `jsEqb`. -/
def jsEqbList : List JSValue → List JSValue → Bool
  | [], [] => true
  | x :: xs, y :: ys => jsEqb x y && jsEqbList xs ys
  | _, _ => false

/-- Field-wise object equality for `jsEqb`. -/
def jsEqbObj : List (String × JSValue) → List (String × JSValue) → Bool
  | [], [] => true
  | (k₁, v₁) :: xs, (k₂, v₂) :: ys => k₁ == k₂ && jsEqb v₁ v₂ && jsEqbObj xs ys
  | _, _ => false

end

/-- Property read `o[k]` on an object: the value at the first occurrence of
the key, `undefined` when the key is absent. -/
def getProp : JSObj → String → JSValue
  | [], _ => .undefined
  | (k, v) :: rest, key => if k = key then v else getProp rest key

/-- Property write `o[k] = v`: replaces the value in place when the key is
present (JavaScript keeps the original insertion position), appends
otherwise. -/
def setProp : JSObj → String → JSValue → JSObj
  | [], key, v => [(key, v)]
  | (k, w) :: rest, key, v =>
    if k = key then (k, v) :: rest else (k, w) :: setProp rest key v

/-- Property delete `delete o[k]`. -/
def delProp (o : JSObj) (key : String) : JSObj :=
  o.filter fun p => !(p.1 == key)

/-- `Object.keys(o)`, in insertion order. -/
def keysOf (o : JSObj) : List String :=
  o.map Prod.fst

/-- Property read on an arbitrary value: objects look the key up, every
other value yields `undefined` (JavaScript property access on a primitive;
access on `null`/`undefined` would throw, which never happens on the guarded
paths modelled here). -/
def jsGetProp : JSValue → String → JSValue
  | .obj fields, key => getProp fields key
  | _, _ => .undefined

/-- Is `sub` a contiguous infix of `l`? -/
def isInfixList (sub : List Char) : List Char → Bool
  | [] => sub.isEmpty
  | c :: t => sub.isPrefixOf (c :: t) || isInfixList sub t

/-- `String.prototype.includes`: substring test. -/
def jsIncludes (s sub : String) : Bool :=
  isInfixList sub.data s.data

/-- `String.prototype.toLowerCase`, character by character (ASCII case
mapping, which covers the genre and country strings compared here). -/
def lowerStr (s : String) : String :=
  String.mk (s.data.map Char.toLower)

/-- All-digit character list to a natural number. -/
def natOfDigits (cs : List Char) : Option Nat :=
  if cs ≠ [] ∧ cs.all Char.isDigit then
    some (cs.foldl (fun a c => a * 10 + (c.toNat - 48)) 0)
  else none

/-- Split a character list at a separator character. -/
def splitOnChar (sep : Char) : List Char → List (List Char)
  | [] => [[]]
  | c :: t =>
    if c = sep then
      [] :: splitOnChar sep t
    else
      match splitOnChar sep t with
      | h :: r => (c :: h) :: r
      | [] => [[c]]

/-- The static country code to name-variant table `countryMapping`, copied
from the source (including the mis-encoded Spanish entry). -/
def countryMapping : String → Option (List String)
  | "pl" => some ["poland", "polska", "polish"]
  | "us" => some ["united states", "usa", "america", "united states of america"]
  | "gb" => some ["united kingdom", "uk", "great britain", "britain"]
  | "de" => some ["germany", "deutschland", "german"]
  | "fr" => some ["france", "french"]
  | "it" => some ["italy", "italia", "italian"]
  | "es" => some ["spain", "espa√±a", "spanish"]
  | "jp" => some ["japan", "japanese"]
  | "kr" => some ["south korea", "korea", "korean"]
  | "cn" => some ["china", "chinese"]
  | "in" => some ["india", "indian"]
  | "ca" => some ["canada", "canadian"]
  | "au" => some ["australia", "australian"]
  | "br" => some ["brazil", "brazilian"]
  | "mx" => some ["mexico", "mexican"]
  | "ar" => some ["argentina", "argentinian"]
  | "ru" => some ["russia", "russian"]
  | "se" => some ["sweden", "swedish"]
  | "no" => some ["norway", "norwegian"]
  | "dk" => some ["denmark", "danish"]
  | "fi" => some ["finland", "finnish"]
  | "nl" => some ["netherlands", "dutch"]
  | "be" => some ["belgium", "belgian"]
  | "ch" => some ["switzerland", "swiss"]
  | "at" => some ["austria", "austrian"]
  | _ => none

/-- `Number(v)` coercion as used by the `Date` constructor: `null` is `0`,
`undefined` is `NaN` (`none`), booleans are `0`/`1`; strings and containers
are not coerced here because the date fields reaching this point are numbers
or nullish. -/
def jsToNumForDate : JSValue → Option Rat
  | .null => some 0
  | .undefined => none
  | .nan => none
  | .bool b => some (if b then 1 else 0)
  | .num q => some q
  | .str _ => none
  | .arr _ => none
  | .obj _ => none

/-- `new Date(year, monthIndex, day)` reduced to a comparable timestamp
code. Years 0..99 map to 1900..1999 as in JavaScript; month overflow is
normalized by the linear month term. Day-of-month overflow across month
lengths is approximated linearly; no proved statement depends on dates.
`none` is an Invalid Date (every comparison on it is false). -/
def jsDateYMD (y m d : JSValue) : Option Rat :=
  match jsToNumForDate y, jsToNumForDate m, jsToNumForDate d with
  | some yq, some mq, some dq =>
    let yAdj : Rat := if 0 ≤ yq ∧ yq ≤ 99 then yq + 1900 else yq
    some ((yAdj * 12 + mq) * 100 + dq)
  | _, _, _ => none

/-- `new Date(string)` on the ISO `YYYY-MM-DD` strings the CLI passes as
date-filter bounds; anything else is an Invalid Date. -/
def jsDateOfString (v : JSValue) : Option Rat :=
  match v with
  | .str s =>
    match splitOnChar '-' s.data with
    | [ys, ms, ds] =>
      match natOfDigits ys, natOfDigits ms, natOfDigits ds with
      | some yn, some mn, some dn =>
        some (((yn : Rat) * 12 + ((mn : Rat) - 1)) * 100 + (dn : Rat))
      | _, _, _ => none
    | _ => none
  | _ => none

/-- `a < b` on dates: false when either side is an Invalid Date. -/
def dateLt (a b : Option Rat) : Bool :=
  match a, b with
  | some x, some y => decide (x < y)
  | _, _ => false

/-- `v.toLowerCase()`: defined on strings, a thrown TypeError otherwise. -/
def jsToLowerCase : JSValue → Except String String
  | .str s => .ok (lowerStr s)
  | _ => .error "TypeError: toLowerCase is not a function"

/-- The filter engine `matchesFilters(movie, filters)` from
`src/utils/helpers.js`, translated branch for branch. The result is
`Except` because the source calls `toLowerCase()` on filter and record
fields that are only strings by convention. Note the `return true` in the
country branch on a direct substring match: it exits the whole function,
skipping the genre filter. -/
def matchesFilters (movie filters : JSObj) : Except String Bool :=
  -- Date range filter
  let dateVerdict : Option Bool :=
    if truthy (getProp filters "startDate") || truthy (getProp filters "endDate") then
      let monthVal := getProp movie "release_month"
      let dayVal := getProp movie "release_day"
      let movieDate := jsDateYMD (getProp movie "release_year")
        (match (if truthy monthVal then monthVal else .num 1) with
          | .num q => .num (q - 1) | .nan => .nan | v => v)
        (if truthy dayVal then dayVal else .num 1)
      if truthy (getProp filters "startDate")
          && dateLt movieDate (jsDateOfString (getProp filters "startDate")) then
        some false
      else if truthy (getProp filters "endDate")
          && dateLt (jsDateOfString (getProp filters "endDate")) movieDate then
        some false
      else
        none
    else none
  match dateVerdict with
  | some b => .ok b
  | none =>
    -- Country filter - improved to handle both codes and names
    let countryStep : Except String (Option Bool) :=
      if truthy (getProp filters "country") then do
        let movieCountries ←
          if truthy (getProp movie "country") then
            jsToLowerCase (getProp movie "country")
          else
            pure ""
        let filterCountry ← jsToLowerCase (getProp filters "country")
        if jsIncludes movieCountries filterCountry then
          -- Direct match: the source returns true from the whole function
          pure (some true)
        else
          match countryMapping filterCountry with
          | some countryVariants =>
            if countryVariants.any fun variant => jsIncludes movieCountries variant then
              pure none
            else
              pure (some false)
          | none =>
            if !jsIncludes movieCountries filterCountry then
              pure (some false)
            else
              pure none
      else pure none
    match countryStep with
    | .error e => .error e
    | .ok (some b) => .ok b
    | .ok none =>
      -- Genre filter
      if truthy (getProp filters "genre") then do
        let movieGenres ←
          if truthy (getProp movie "genre") then
            jsToLowerCase (getProp movie "genre")
          else
            pure ""
        let filterGenre ← jsToLowerCase (getProp filters "genre")
        if !jsIncludes movieGenres filterGenre then
          pure false
        else
          pure true
      else .ok true

/-- Elements of an array value (only used under `isArr` guards). -/
def arrElems : JSValue → List JSValue
  | .arr xs => xs
  | _ => []

/-- The body of the merge loop of `mergeMovieData` for one key of the
incoming record `current`: `cv = current[key]`. Mirrors the
`if / else if / else if` chain of the source. -/
def mergeKey (merged : JSObj) (key : String) (cv : JSValue) : JSObj :=
  if presentVal cv then
    if key == "cast" && isArr cv && isArr (getProp merged key) then
      -- Merge cast arrays, avoiding duplicates: append the incoming actors
      -- whose name is not among the existing names
      setProp merged key (.arr (arrElems (getProp merged key) ++
        (arrElems cv).filter fun actor =>
          !(((arrElems (getProp merged key)).map fun a => jsGetProp a "name").any
            fun n => jsEqb n (jsGetProp actor "name"))))
    else if key == "other_titles" && isArr cv && isArr (getProp merged key) then
      -- Merge other titles arrays
      setProp merged key (.arr (arrElems (getProp merged key) ++ arrElems cv))
    else if !truthy (getProp merged key) || jsEqb (getProp merged key) .null
        || jsEqb (getProp merged key) (.str "") then
      -- Use value from current source if merged does not have it
      setProp merged key cv
    else
      merged
  else merged

/-- One iteration of the outer merge loop: fold the keys of the incoming
record into the accumulated record. -/
def mergeObj (merged current : JSObj) : JSObj :=
  (keysOf current).foldl (fun m key => mergeKey m key (getProp current key)) merged

/-- `mergeMovieData(movieDataArray)` from `src/utils/helpers.js`. The
JavaScript `null`/missing-argument case and the empty-array case both return
null, modelled as the empty list mapping to `none`. -/
def mergeMovieData : List JSObj → Option JSObj
  | [] => none
  | first :: rest =>
    -- Start with the first movie data as base, merge the others in order
    let merged := rest.foldl mergeObj first
    -- Add sources information: .map(data => data.source).filter(Boolean)
    some (setProp merged "sources"
      (.arr (((first :: rest).map fun data => getProp data "source").filter truthy)))

/-- Truncation toward zero, the integer `parseInt` returns on a numeric
argument. -/
def ratTrunc (q : Rat) : Int :=
  q.num / (q.den : Int)

/-- A non-empty decimal-digit prefix as a natural number. -/
def digitsPrefix (cs : List Char) : Option Nat :=
  natOfDigits (cs.takeWhile Char.isDigit)

/-- `parseInt` on a string: optional sign then a digit prefix; `none` is
`NaN`. (Leading-whitespace skipping and non-decimal radixes are not
modelled; the pipeline only parses already-trimmed decimal strings.) -/
def parseIntPrefix : List Char → Option Int
  | '-' :: rest => (digitsPrefix rest).map fun n => -(n : Int)
  | '+' :: rest => (digitsPrefix rest).map fun n => (n : Int)
  | cs => (digitsPrefix cs).map fun n => (n : Int)

/-- `parseFloat` on an unsigned string: digit prefix with an optional
fractional part; `none` is `NaN`. -/
def parseFloatCore (cs : List Char) : Option Rat :=
  let ip := cs.takeWhile Char.isDigit
  let rest := cs.drop ip.length
  match rest with
  | '.' :: tl =>
    let fp := tl.takeWhile Char.isDigit
    if ip = [] ∧ fp = [] then none
    else
      let ipn : Nat := (natOfDigits ip).getD 0
      let fpn : Nat := (natOfDigits fp).getD 0
      some ((ipn : Rat) + (fpn : Rat) / ((10 : Rat) ^ fp.length))
  | _ =>
    (natOfDigits ip).map fun n => (n : Rat)

/-- `parseFloat` on a string: optional sign then `parseFloatCore`. -/
def parseFloatPrefix : List Char → Option Rat
  | '-' :: rest => (parseFloatCore rest).map fun q => -q
  | '+' :: rest => parseFloatCore rest
  | cs => parseFloatCore cs

/-- `parseInt(v)`: numbers are truncated toward zero, strings are parsed,
everything else (whose string form is non-numeric) is `NaN`. Array
stringification is not modelled. -/
def jsParseInt : JSValue → JSValue
  | .num q => .num ((ratTrunc q : Int) : Rat)
  | .str s =>
    match parseIntPrefix s.data with
    | some n => .num (n : Rat)
    | none => .nan
  | _ => .nan

/-- `parseFloat(v)`: numbers pass through, strings are parsed, everything
else is `NaN`. -/
def jsParseFloat : JSValue → JSValue
  | .num q => .num q
  | .str s =>
    match parseFloatPrefix s.data with
    | some q => .num q
    | none => .nan
  | _ => .nan

/-- `String.prototype.trim`: drop whitespace from both ends. -/
def jsTrim (s : String) : String :=
  String.mk (((s.data.dropWhile Char.isWhitespace).reverse.dropWhile
    Char.isWhitespace).reverse)

/-- One numeric-typing step of `cleanMovieData`:
`if (cleaned[f]) cleaned[f] = parse(cleaned[f])`, where `parse` is
`parseInt` or `parseFloat` depending on the field. -/
def cleanNumField (o : JSObj) (field : String) (parse : JSValue → JSValue) : JSObj :=
  if truthy (getProp o field) then
    setProp o field (parse (getProp o field))
  else o

/-- One string-cleaning step of `cleanMovieData`:
trim when the field holds a truthy string. -/
def cleanStrField (o : JSObj) (field : String) : JSObj :=
  if truthy (getProp o field) then
    match getProp o field with
    | .str s => setProp o field (.str (jsTrim s))
    | _ => o
  else o

/-- The string fields `cleanMovieData` trims, in source order. -/
def cleanStringFields : List String :=
  ["title", "original_title", "country", "description", "genre",
   "distribution", "studio", "based_on"]

/-- The boolean-typing step of `cleanMovieData`:
`if (v !== null && v !== undefined) cleaned[f] = Boolean(v)` (JavaScript
`Boolean` is exactly truthiness). -/
def cleanBoolField (o : JSObj) (field : String) : JSObj :=
  match getProp o field with
  | .null => o
  | .undefined => o
  | v => setProp o field (.bool (truthy v))

/-- The array-defaulting step of `cleanMovieData`:
`if (!Array.isArray(cleaned[f])) cleaned[f] = []`. -/
def ensureArrField (o : JSObj) (field : String) : JSObj :=
  if isArr (getProp o field) then o else setProp o field (.arr [])

/-- `cleanMovieData(movie)` from `src/utils/helpers.js`; the falsy-input
early return is the `none` case. -/
def cleanMovieData : Option JSObj → Option JSObj
  | none => none
  | some movie =>
    -- Ensure numeric fields are properly typed
    let cleaned := cleanNumField movie "release_year" jsParseInt
    let cleaned := cleanNumField cleaned "release_month" jsParseInt
    let cleaned := cleanNumField cleaned "release_day" jsParseInt
    let cleaned := cleanNumField cleaned "runtime_min" jsParseInt
    let cleaned := cleanNumField cleaned "budget" jsParseFloat
    let cleaned := cleanNumField cleaned "gross_worldwide_boxoffice" jsParseFloat
    -- Ensure boolean fields are properly typed
    let cleaned := cleanBoolField cleaned "is_color"
    -- Clean string fields
    let cleaned := cleanStringFields.foldl cleanStrField cleaned
    -- Ensure cast is an array
    let cleaned := ensureArrField cleaned "cast"
    -- Ensure other_titles is an array
    let cleaned := ensureArrField cleaned "other_titles"
    some cleaned

/-- JavaScript `a || b` (returns the raw second operand when the first is
falsy). -/
def jsOr (a b : JSValue) : JSValue :=
  if truthy a then a else b

/-- `v !== 'N/A' ? v : null`, the OMDB sentinel-field pattern. -/
def nonNA (v : JSValue) : JSValue :=
  if jsEqb v (.str "N/A") then .null else v

/-- Join a list of strings with a separator (`Array.prototype.join`). -/
def joinWith (sep : String) : List String → String
  | [] => ""
  | [x] => x
  | x :: xs => x ++ sep ++ joinWith sep xs

/-- The string held by a value; the joins and templates of the normalize
steps only ever receive strings, so other shapes (which JavaScript would
stringify) are not modelled. -/
def strOfVal : JSValue → String
  | .str s => s
  | _ => ""

/-- Split a character list at the two-character separator `", "`
(`String.prototype.split(', ')`, the only multi-character split the
pipeline performs). -/
def splitCommaSpace : List Char → List (List Char)
  | [] => [[]]
  | [c] => [[c]]
  | c1 :: c2 :: t =>
    if c1 = ',' ∧ c2 = ' ' then
      [] :: splitCommaSpace t
    else
      match splitCommaSpace (c2 :: t) with
      | h :: r => (c1 :: h) :: r
      | [] => [[c1]]

/-- Keep only decimal digits (`s.replace(/\D/g, '')`). -/
def digitsOnly (s : String) : String :=
  String.mk (s.data.filter Char.isDigit)

/-- Strip commas and dollar signs (`s.replace(/[,$]/g, '')`). -/
def stripCommaDollar (s : String) : String :=
  String.mk (s.data.filter fun c => !(c == ',' || c == '$'))

/-- `new Date(dateString)` for the ISO `YYYY-MM-DD` strings the external
APIs return, as a year/month/day triple; anything else (including the
month-name formats `new Date` would also accept) is an Invalid Date. -/
def parseYMDString : JSValue → Option (Int × Int × Int)
  | .str s =>
    match splitOnChar '-' s.data with
    | [ys, ms, ds] =>
      match natOfDigits ys, natOfDigits ms, natOfDigits ds with
      | some y, some m, some d => some ((y : Int), (m : Int), (d : Int))
      | _, _, _ => none
    | _ => none
  | _ => none

/-- `parseReleaseDate` from `OMDBApi.normalizeMovieData`: a falsy or
`'N/A'` or unparsable date string gives all-null year/month/day. -/
def parseReleaseDate (v : JSValue) : JSValue × JSValue × JSValue :=
  if !truthy v || jsEqb v (.str "N/A") then (.null, .null, .null)
  else
    match parseYMDString v with
    | some (y, m, d) => (.num y, .num m, .num d)
    | none => (.null, .null, .null)

/-- `parseNumeric` from `OMDBApi.normalizeMovieData`: strip `,`/`$` from the
string form, parse as int or float, `NaN` becomes null. -/
def parseNumeric (value : JSValue) (isFloat : Bool) : JSValue :=
  if !truthy value || jsEqb value (.str "N/A") then .null
  else
    let cleanedV : JSValue :=
      match value with
      | .str s => .str (stripCommaDollar s)
      | v => v
    match (if isFloat then jsParseFloat else jsParseInt) cleanedV with
    | .nan => .null
    | p => p

/-- `OMDBApi.normalizeMovieData` from `src/api/omdbApi.js`, field for field.
Branches where the JavaScript would throw on an ill-typed payload field
(e.g. `.replace` on a non-string `Runtime`) yield null instead; claims only
quantify over payloads the source successfully normalizes. -/
def omdbNormalize (omdbData : JSValue) : Option JSObj :=
  if !truthy omdbData || jsEqb (jsGetProp omdbData "Response") (.str "False") then
    none
  else
    let releaseDate := parseReleaseDate (jsGetProp omdbData "Released")
    let runtime : JSValue :=
      if truthy (jsGetProp omdbData "Runtime") then
        match jsGetProp omdbData "Runtime" with
        | .str s => parseNumeric (.str (digitsOnly s)) false
        | _ => .null
      else .null
    let budget := parseNumeric (jsGetProp omdbData "Budget") true
    let boxOffice := parseNumeric (jsGetProp omdbData "BoxOffice") true
    let actorsV := jsGetProp omdbData "Actors"
    let cast : List JSValue :=
      if truthy actorsV && !jsEqb actorsV (.str "N/A") then
        match actorsV with
        | .str s =>
          ((splitCommaSpace s.data).map fun actor =>
            JSValue.obj [("name", .str (jsTrim (String.mk actor))), ("role", .null)]).filter
            fun actor => !(strOfVal (jsGetProp actor "name")).data.isEmpty
        | _ => []
      else []
    let imdbRating := parseNumeric (jsGetProp omdbData "imdbRating") true
    let metascore := parseNumeric (jsGetProp omdbData "Metascore") false
    let isColor : JSValue :=
      if jsEqb (jsGetProp omdbData "Type") (.str "movie")
          && truthy releaseDate.1
          && (match releaseDate.1 with
              | .num y => decide (y > 1950)
              | _ => false) then
        .bool true
      else .null
    let votesV : JSValue :=
      match jsGetProp omdbData "imdbVotes" with
      | .null => .undefined
      | .undefined => .undefined
      | .str s => .str (String.mk (s.data.filter fun c => !(c == ',')))
      | v => v
    some
      [("title", jsOr (jsGetProp omdbData "Title") .null),
       ("original_title", jsOr (jsGetProp omdbData "Title") .null),
       ("release_year", releaseDate.1),
       ("release_month", releaseDate.2.1),
       ("release_day", releaseDate.2.2),
       ("country", nonNA (jsGetProp omdbData "Country")),
       ("description", nonNA (jsGetProp omdbData "Plot")),
       ("cast", .arr cast),
       ("genre", nonNA (jsGetProp omdbData "Genre")),
       ("runtime_min", runtime),
       ("is_color", isColor),
       ("gross_worldwide_boxoffice", boxOffice),
       ("budget", budget),
       ("distribution", .null),
       ("studio", nonNA (jsGetProp omdbData "Production")),
       ("based_on", .null),
       ("other_titles", .arr []),
       ("imdb_id", jsOr (jsGetProp omdbData "imdbID") .null),
       ("imdb_rating", imdbRating),
       ("imdb_vote_count", parseNumeric votesV false),
       ("metascore", metascore),
       ("director", nonNA (jsGetProp omdbData "Director")),
       ("writer", nonNA (jsGetProp omdbData "Writer")),
       ("awards", nonNA (jsGetProp omdbData "Awards")),
       ("poster_url", nonNA (jsGetProp omdbData "Poster")),
       ("language", nonNA (jsGetProp omdbData "Language")),
       ("rated", nonNA (jsGetProp omdbData "Rated")),
       ("dvd_release", nonNA (jsGetProp omdbData "DVD")),
       ("website", nonNA (jsGetProp omdbData "Website")),
       ("source", .str "OMDB")]

/-- `v > 0 ? v : null`, the TMDB revenue/budget pattern (a comparison on a
non-number is false, giving null). -/
def posNumOrNull : JSValue → JSValue
  | .num q => if 0 < q then .num q else .null
  | _ => .null

/-- `Math.round` (half away from zero upward, as in JavaScript). -/
def jsRound (q : Rat) : Int :=
  (q + 1 / 2).floor

/-- One entry of the TMDB cast slice: `(actor, index)` to the normalized
cast object. -/
def tmdbCastEntry (p : Nat × JSValue) : JSValue :=
  .obj [("name", jsGetProp p.2 "name"),
        ("role", jsGetProp p.2 "character"),
        ("order", jsOr (jsGetProp p.2 "order") (.num p.1)),
        ("profile_path",
          if truthy (jsGetProp p.2 "profile_path") then
            .str ("https://image.tmdb.org/t/p/w185" ++ strOfVal (jsGetProp p.2 "profile_path"))
          else .null)]

/-- Crew names with one of the given jobs, joined `", "`-style
(`crew.filter(p => jobs.includes(p.job)).map(x => x.name).join(sep)`). -/
def crewJoin (crew : List JSValue) (jobs : List String) (sep : String) : String :=
  joinWith sep ((crew.filter fun p =>
    match jsGetProp p "job" with
    | .str j => jobs.contains j
    | _ => false).map fun x => strOfVal (jsGetProp x "name"))

/-- `TMDBApi.normalizeMovieData` from `src/api/tmdbApi.js`, field for
field. -/
def tmdbNormalize (tmdbData : JSValue) : Option JSObj :=
  if !truthy tmdbData then none
  else
    let releaseDate := parseYMDString (jsGetProp tmdbData "release_date")
    -- releaseDate.getFullYear() || null (and month+1, day), NaN giving null
    let relYear : JSValue :=
      match releaseDate with
      | some (y, _, _) => jsOr (.num y) .null
      | none => .null
    let relMonth : JSValue :=
      match releaseDate with
      | some (_, m, _) => jsOr (.num m) .null
      | none => .null
    let relDay : JSValue :=
      match releaseDate with
      | some (_, _, d) => jsOr (.num d) .null
      | none => .null
    let creditsV := jsGetProp tmdbData "credits"
    let cast : List JSValue :=
      if truthy creditsV && truthy (jsGetProp creditsV "cast") then
        ((arrElems (jsGetProp creditsV "cast")).take 20).enum.map tmdbCastEntry
      else []
    let crew : List JSValue :=
      if truthy creditsV && truthy (jsGetProp creditsV "crew") then
        arrElems (jsGetProp creditsV "crew")
      else []
    let directors := crewJoin crew ["Director"] ", "
    let writers := crewJoin crew ["Writer", "Screenplay", "Story"] ", "
    let producers := crewJoin crew ["Producer"] ", "
    let genres : JSValue :=
      if truthy (jsGetProp tmdbData "genres") then
        .str (joinWith "/" ((arrElems (jsGetProp tmdbData "genres")).map
          fun g => strOfVal (jsGetProp g "name")))
      else .null
    let countries : JSValue :=
      if truthy (jsGetProp tmdbData "production_countries") then
        .str (joinWith ", " ((arrElems (jsGetProp tmdbData "production_countries")).map
          fun c => strOfVal (jsGetProp c "name")))
      else .null
    let studios : JSValue :=
      if truthy (jsGetProp tmdbData "production_companies") then
        .str (joinWith " / " ((arrElems (jsGetProp tmdbData "production_companies")).map
          fun c => strOfVal (jsGetProp c "name")))
      else .null
    let otherTitles : List JSValue :=
      if truthy (jsGetProp tmdbData "alternative_titles")
          && truthy (jsGetProp (jsGetProp tmdbData "alternative_titles") "titles") then
        (arrElems (jsGetProp (jsGetProp tmdbData "alternative_titles") "titles")).map
          fun alt => .obj [("title", jsGetProp alt "title"),
                           ("country", jsGetProp alt "iso_3166_1")]
      else []
    let keywords : JSValue :=
      if truthy (jsGetProp tmdbData "keywords")
          && truthy (jsGetProp (jsGetProp tmdbData "keywords") "keywords") then
        .str (joinWith ", " ((arrElems (jsGetProp (jsGetProp tmdbData "keywords") "keywords")).map
          fun k => strOfVal (jsGetProp k "name")))
      else .null
    let videos : List JSValue :=
      if truthy (jsGetProp tmdbData "videos")
          && truthy (jsGetProp (jsGetProp tmdbData "videos") "results") then
        ((arrElems (jsGetProp (jsGetProp tmdbData "videos") "results")).filter
          fun v => jsEqb (jsGetProp v "site") (.str "YouTube")).map
          fun video => .obj
            [("key", jsGetProp video "key"),
             ("name", jsGetProp video "name"),
             ("type", jsGetProp video "type"),
             ("url", .str ("https://www.youtube.com/watch?v=" ++ strOfVal (jsGetProp video "key")))]
      else []
    let images : JSValue :=
      if truthy (jsGetProp tmdbData "images") then
        let im := jsGetProp tmdbData "images"
        .obj [("backdrops", .num (if truthy (jsGetProp im "backdrops") then
                ((arrElems (jsGetProp im "backdrops")).length : Rat) else 0)),
              ("posters", .num (if truthy (jsGetProp im "posters") then
                ((arrElems (jsGetProp im "posters")).length : Rat) else 0)),
              ("logos", .num (if truthy (jsGetProp im "logos") then
                ((arrElems (jsGetProp im "logos")).length : Rat) else 0))]
      else .null
    let externalIds := jsOr (jsGetProp tmdbData "external_ids") (.obj [])
    let spokenLanguages : JSValue :=
      if truthy (jsGetProp tmdbData "spoken_languages") then
        .str (joinWith ", " ((arrElems (jsGetProp tmdbData "spoken_languages")).map
          fun lang => strOfVal (jsOr (jsGetProp lang "english_name") (jsGetProp lang "name"))))
      else .null
    let watchProviders : Rat :=
      if truthy (jsGetProp tmdbData "watch/providers")
          && truthy (jsGetProp (jsGetProp tmdbData "watch/providers") "results") then
        match jsGetProp (jsGetProp tmdbData "watch/providers") "results" with
        | .obj fs => (fs.length : Rat)
        | _ => 0
      else 0
    some
      [("title", jsGetProp tmdbData "title"),
       ("original_title", jsGetProp tmdbData "original_title"),
       ("release_year", relYear),
       ("release_month", relMonth),
       ("release_day", relDay),
       ("country", countries),
       ("description", jsGetProp tmdbData "overview"),
       ("tagline", jsGetProp tmdbData "tagline"),
       ("cast", .arr cast),
       ("genre", genres),
       ("runtime_min", jsGetProp tmdbData "runtime"),
       ("is_color", .bool true),
       ("gross_worldwide_boxoffice", posNumOrNull (jsGetProp tmdbData "revenue")),
       ("budget", posNumOrNull (jsGetProp tmdbData "budget")),
       ("distribution", .null),
       ("studio", studios),
       ("based_on", .null),
       ("other_titles", .arr otherTitles),
       ("tmdb_id", jsGetProp tmdbData "id"),
       ("imdb_id", jsOr (jsGetProp tmdbData "imdb_id") (jsGetProp externalIds "imdb_id")),
       ("tmdb_rating", jsGetProp tmdbData "vote_average"),
       ("tmdb_vote_count", jsGetProp tmdbData "vote_count"),
       ("popularity", jsGetProp tmdbData "popularity"),
       ("poster_url",
         if truthy (jsGetProp tmdbData "poster_path") then
           .str ("https://image.tmdb.org/t/p/w500" ++ strOfVal (jsGetProp tmdbData "poster_path"))
         else .null),
       ("backdrop_url",
         if truthy (jsGetProp tmdbData "backdrop_path") then
           .str ("https://image.tmdb.org/t/p/w1280" ++ strOfVal (jsGetProp tmdbData "backdrop_path"))
         else .null),
       ("adult", jsGetProp tmdbData "adult"),
       ("homepage", jsGetProp tmdbData "homepage"),
       ("status", jsGetProp tmdbData "status"),
       ("keywords", keywords),
       ("videos", .arr videos),
       ("images_count", images),
       ("spoken_languages", spokenLanguages),
       ("watch_providers_count", .num watchProviders),
       ("director", .str directors),
       ("writer", .str writers),
       ("producer", .str producers),
       ("facebook_id", jsGetProp externalIds "facebook_id"),
       ("instagram_id", jsGetProp externalIds "instagram_id"),
       ("twitter_id", jsGetProp externalIds "twitter_id"),
       ("wikidata_id", jsGetProp externalIds "wikidata_id"),
       ("source", .str "TMDB")]

/-- The `displayName || name || primaryName` person-name pattern of the
IMDB adapter. -/
def imdbPersonName (x : JSValue) : JSValue :=
  jsOr (jsGetProp x "displayName") (jsOr (jsGetProp x "name") (jsGetProp x "primaryName"))

/-- `IMDBApi.normalizeMovieData` from `src/api/imdbApi.js`, field for
field. -/
def imdbNormalize (imdbData : JSValue) : Option JSObj :=
  if !truthy imdbData then none
  else
    let releaseYear := jsOr (jsGetProp imdbData "startYear") .null
    let cast : List JSValue :=
      if truthy (jsGetProp imdbData "stars") then
        (arrElems (jsGetProp imdbData "stars")).map fun star =>
          .obj [("name", imdbPersonName star), ("role", .null)]
      else []
    let runtime : JSValue :=
      if truthy (jsGetProp imdbData "runtimeSeconds") then
        match jsGetProp imdbData "runtimeSeconds" with
        | .num q => .num ((jsRound (q / 60) : Int) : Rat)
        | _ => .null
      else .null
    let genres : JSValue :=
      if truthy (jsGetProp imdbData "genres") then
        .str (joinWith "/" ((arrElems (jsGetProp imdbData "genres")).map strOfVal))
      else .null
    let countries : JSValue :=
      if truthy (jsGetProp imdbData "originCountries") then
        .str (joinWith ", " ((arrElems (jsGetProp imdbData "originCountries")).map
          fun c => strOfVal (jsGetProp c "name")))
      else .null
    let directors : JSValue :=
      if truthy (jsGetProp imdbData "directors") then
        .str (joinWith ", " ((arrElems (jsGetProp imdbData "directors")).map
          fun d => strOfVal (imdbPersonName d)))
      else .null
    let writers : JSValue :=
      if truthy (jsGetProp imdbData "writers") then
        .str (joinWith ", " ((arrElems (jsGetProp imdbData "writers")).map
          fun w => strOfVal (imdbPersonName w)))
      else .null
    some
      [("title", jsGetProp imdbData "primaryTitle"),
       ("original_title", jsOr (jsGetProp imdbData "originalTitle") (jsGetProp imdbData "primaryTitle")),
       ("release_year", releaseYear),
       ("release_month", .null),
       ("release_day", .null),
       ("country", countries),
       ("description", jsGetProp imdbData "plot"),
       ("cast", .arr cast),
       ("genre", genres),
       ("runtime_min", runtime),
       ("is_color", .bool true),
       ("gross_worldwide_boxoffice", .null),
       ("budget", .null),
       ("distribution", .null),
       ("studio", .null),
       ("based_on", .null),
       ("other_titles", .arr []),
       ("imdb_id", jsGetProp imdbData "id"),
       ("imdb_rating", jsOr (jsGetProp (jsGetProp imdbData "rating") "aggregateRating") .null),
       ("imdb_vote_count", jsOr (jsGetProp (jsGetProp imdbData "rating") "voteCount") .null),
       ("metacritic_score", jsOr (jsGetProp (jsGetProp imdbData "metacritic") "score") .null),
       ("director", directors),
       ("writer", writers),
       ("awards", .null),
       ("poster_url", jsOr (jsGetProp (jsGetProp imdbData "primaryImage") "url") .null),
       ("source", .str "IMDB")]

/-- `this.rateLimitDelay = 1000 / rateLimitPerSecond`, common to all three
adapter constructors. -/
def rateLimitDelay (rateLimitPerSecond : Rat) : Rat :=
  1000 / rateLimitPerSecond

/-- `OMDBApi` constructor default: `rateLimitPerSecond = 10`. -/
def omdbDefaultRate : Rat := 10

/-- `TMDBApi` constructor default: `rateLimitPerSecond = 40` (the adjacent
source comment reads: TMDB allows 40 requests per 10 seconds). -/
def tmdbDefaultRate : Rat := 40

/-- `IMDBApi` constructor default: `rateLimitPerSecond = 5`. -/
def imdbDefaultRate : Rat := 5

/-- Timing of `rateLimitedRequest`: with stored `lastRequestTime` and
current clock `now`, the adapter sleeps the remaining delta when the
elapsed time is below the delay, then records `Date.now()` as the new
last-call timestamp and issues the call. The sleep is modelled as exact;
the returned value is both the outbound-call time and the new stored
timestamp. -/
def rateLimitedCallTime (delay lastRequestTime now : Rat) : Rat :=
  if now - lastRequestTime < delay then
    now + (delay - (now - lastRequestTime))
  else now

/-- Thrown-error taxonomy at an adapter boundary: a transport error
(network failure, non-2xx, timeout — an `AxiosError`), or a plain error the
adapter constructs itself from a 2xx payload (the OMDB sentinel path). The
two constructors model the two distinguishable error kinds. -/
inductive ApiError where
  | transport (msg : String)
  | apiError (msg : JSValue)
deriving Repr

/-- `OMDBApi.rateLimitedRequest` error handling: the transport layer either
delivers a 2xx JSON payload or throws; a delivered payload whose `Response`
field is `'False'` (the OMDB not-found or error sentinel) is converted into
a thrown plain error carrying `data.Error` (or a fallback message). -/
def omdbRateLimitedRequest (transportResult : Except String JSValue) :
    Except ApiError JSValue :=
  match transportResult with
  | .error msg => .error (.transport msg)
  | .ok data =>
    if jsEqb (jsGetProp data "Response") (.str "False") then
      .error (.apiError (jsOr (jsGetProp data "Error") (.str "Unknown OMDB API Error")))
    else .ok data

/-- `TMDBApi.rateLimitedRequest` error handling: transport errors are
logged and rethrown; any delivered 2xx payload is returned unvalidated
(no not-found sentinel handling). -/
def tmdbRateLimitedRequest (transportResult : Except String JSValue) :
    Except ApiError JSValue :=
  match transportResult with
  | .error msg => .error (.transport msg)
  | .ok data => .ok data

/-- `IMDBApi.getMovieDetails` error handling: the surrounding try/catch
converts every failure into a returned `null`, and a delivered payload is
returned as-is. The `Except` result type shows where a thrown error would
live; no input produces one. -/
def imdbGetMovieDetails (transportResult : Except String JSValue) :
    Except ApiError JSValue :=
  match transportResult with
  | .ok data => .ok data
  | .error _ => .ok .null

/-- `tt`-normalization of an IMDb id in `OMDBApi.getMovieDetails`: strip a
leading `tt`, then prepend `tt`. -/
def formatImdbId (s : String) : String :=
  "tt" ++ (if "tt".data.isPrefixOf s.data then String.mk (s.data.drop 2) else s)

/-- `OMDBApi.getMovieDetails(imdbId)`: a falsy or non-string id throws a
plain validation error; otherwise the rate-limited request is issued for
the formatted id against the transport oracle `http`. -/
def omdbGetMovieDetails (http : String → Except String JSValue) (imdbId : JSValue) :
    Except ApiError JSValue :=
  match imdbId with
  | .str s =>
    if s = "" then .error (.apiError (.str "Valid IMDb ID is required"))
    else omdbRateLimitedRequest (http (formatImdbId s))
  | _ => .error (.apiError (.str "Valid IMDb ID is required"))

/-- `IMDBApi.getMovieDetails(imdbId)` including the id formatting
(`imdbId.startsWith('tt') ? imdbId : 'tt' + imdbId`); a non-string id makes
`.startsWith` throw inside the try, so the catch returns `null`. -/
def imdbGetMovieDetailsById (http : String → Except String JSValue) (imdbId : JSValue) :
    Except ApiError JSValue :=
  match imdbId with
  | .str s =>
    imdbGetMovieDetails (http (if "tt".data.isPrefixOf s.data then s else "tt" ++ s))
  | _ => .ok .null

/-- `Array.prototype.includes` (SameValueZero) for a string needle, as used
on a record's `sources`; a string receiver falls back to
`String.prototype.includes`. -/
def jsIncludesVal (v : JSValue) (s : String) : Bool :=
  match v with
  | .arr xs => xs.any fun x => jsEqb x (.str s)
  | .str t => jsIncludes t s
  | _ => false

/-- The outcome of every outbound call a `MovieFetcher` workflow can make,
plus the enabled-API flags of its configuration. Each field models one
adapter operation as a whole: `Except.error` is the adapter call throwing. -/
structure ApiEnv where
  omdbEnabled : Bool
  tmdbEnabled : Bool
  imdbEnabled : Bool
  omdbGetByTitle : String → Except ApiError JSValue
  omdbHttpById : String → Except String JSValue
  tmdbSearch : JSValue → Except ApiError JSValue
  tmdbGetDetails : JSValue → Except ApiError JSValue
  tmdbDiscoverPage : Nat → Except ApiError JSValue
  imdbHttpById : String → Except String JSValue

/-- `MovieFetcher.searchMoviesByTitle`: query each enabled adapter inside
its own try/catch (log-and-skip on failure) and accumulate the normalized
records in OMDB, TMDB, IMDB order. The IMDB adapter's text search is
hardcoded to return `{ results: [] }`, so its branch never contributes. -/
def searchMoviesByTitleModel (env : ApiEnv) (title : String) : List JSObj :=
  let omdbPart : List JSObj :=
    if env.omdbEnabled then
      match env.omdbGetByTitle title with
      | .error _ => []
      | .ok omdbResult =>
        if truthy omdbResult && !jsEqb (jsGetProp omdbResult "Response") (.str "False") then
          match omdbNormalize omdbResult with
          | some n => [n]
          | none => []
        else []
    else []
  let tmdbPart : List JSObj :=
    if env.tmdbEnabled then
      match env.tmdbSearch (.str title) with
      | .error _ => []
      | .ok searchResult =>
        -- tmdbSearchResult.results && tmdbSearchResult.results.length > 0
        match arrElems (jsGetProp searchResult "results") with
        | [] => []
        | first :: _ =>
          match env.tmdbGetDetails (jsGetProp first "id") with
          | .error _ => []
          | .ok movieDetails =>
            match tmdbNormalize movieDetails with
            | some n => [n]
            | none => []
    else []
  omdbPart ++ tmdbPart

/-- The per-title body of `MovieFetcher.fetchMoviesByTitles`: search all
adapters, merge, clean, filter; any error thrown inside the loop body
(e.g. by `matchesFilters` on ill-typed fields) is caught and the title is
skipped. -/
def fetchTitleStep (env : ApiEnv) (filters : JSObj) (title : String) : List JSObj :=
  if (searchMoviesByTitleModel env title).length > 0 then
    match cleanMovieData (mergeMovieData (searchMoviesByTitleModel env title)) with
    | none => []
    | some cleanedMovie =>
      match matchesFilters cleanedMovie filters with
      | .ok true => [cleanedMovie]
      | .ok false => []
      | .error _ => []
  else []

/-- `MovieFetcher.fetchMoviesByTitles(titles, filters)`: sequentially fold
the per-title step, accumulating whatever succeeds. The inter-title 500ms
delay has no observable effect on the returned list. -/
def fetchMoviesByTitlesModel (env : ApiEnv) (filters : JSObj) (titles : List String) :
    List JSObj :=
  titles.foldl (fun allResults title => allResults ++ fetchTitleStep env filters title) []

/-- The `enrichmentResults` list built by the per-movie body of
`MovieFetcher.enrichMovieData`: seed with the existing record, then append
whatever each enabled, not-yet-represented adapter yields (every
per-adapter failure is swallowed silently). -/
def enrichGather (env : ApiEnv) (movie : JSObj) : List JSObj :=
  let sourcesV := getProp movie "sources"
  let omdbPart : List JSObj :=
    if truthy (getProp movie "imdb_id")
        && env.omdbEnabled
        && (!truthy sourcesV || !jsIncludesVal sourcesV "OMDB") then
      match omdbGetMovieDetails env.omdbHttpById (getProp movie "imdb_id") with
      | .error _ => []
      | .ok omdbData =>
        if truthy omdbData && !jsEqb (jsGetProp omdbData "Response") (.str "False") then
          match omdbNormalize omdbData with
          | some n => [n]
          | none => []
        else []
    else []
  let imdbPart : List JSObj :=
    if truthy (getProp movie "imdb_id")
        && env.imdbEnabled
        && (!truthy sourcesV || !jsIncludesVal sourcesV "IMDB") then
      match imdbGetMovieDetailsById env.imdbHttpById (getProp movie "imdb_id") with
      | .error _ => []
      | .ok imdbData =>
        if truthy imdbData then
          match imdbNormalize imdbData with
          | some n => [n]
          | none => []
        else []
    else []
  let tmdbPart : List JSObj :=
    if env.tmdbEnabled && (!truthy sourcesV || !jsIncludesVal sourcesV "TMDB") then
      match env.tmdbSearch (getProp movie "title") with
      | .error _ => []
      | .ok searchResult =>
        match arrElems (jsGetProp searchResult "results") with
        | [] => []
        | first :: _ =>
          match env.tmdbGetDetails (jsGetProp first "id") with
          | .error _ => []
          | .ok movieDetails =>
            match tmdbNormalize movieDetails with
            | some n => [n]
            | none => []
    else []
  [movie] ++ omdbPart ++ imdbPart ++ tmdbPart

/-- The per-movie body of `MovieFetcher.enrichMovieData`: merge and clean
the gathered per-source records; only a truthy cleaned record is pushed.
The outer per-movie catch (which would keep the original record) is
unreachable here because every inner failure is already handled. -/
def enrichStep (env : ApiEnv) (movie : JSObj) : List JSObj :=
  match cleanMovieData (mergeMovieData (enrichGather env movie)) with
  | some cleanedMovie => [cleanedMovie]
  | none => []

/-- `MovieFetcher.enrichMovieData(movies)`. -/
def enrichMovieDataModel (env : ApiEnv) (movies : List JSObj) : List JSObj :=
  movies.foldl (fun acc movie => acc ++ enrichStep env movie) []

/-- One movie of a discovery page: detail lookup, normalize, then re-filter
with the country dimension removed (country filtering is trusted to the
upstream source). A failure anywhere in the body is caught per movie and
contributes nothing. -/
def discoverBatchMovie (env : ApiEnv) (filters : JSObj) (movie : JSValue) :
    Option JSObj :=
  match env.tmdbGetDetails (jsGetProp movie "id") with
  | .error _ => none
  | .ok movieDetails =>
    match tmdbNormalize movieDetails with
    | none => none
    | some normalized =>
      let dateOnlyFilters :=
        if truthy (getProp filters "country") then delProp filters "country" else filters
      match matchesFilters normalized dateOnlyFilters with
      | .ok true => some normalized
      | .ok false => none
      | .error _ => none

/-- One discovery page's accumulated results. The page is processed in
sub-batches of 5 via join-all; each sub-batch preserves input order and
sub-batches are appended in sequence, so the page contributes the
order-preserving filtration of its results. -/
def discoverProcessPage (env : ApiEnv) (filters : JSObj) (results : List JSValue) :
    List JSObj :=
  results.filterMap (discoverBatchMovie env filters)

/-- The page loop of `MovieFetcher.discoverMovies`, with an explicit fuel
argument bounding the iteration count (the source's `for` loop is bounded
by `maxPages`). State: current page, `consecutiveEmptyPages`, accumulated
results, and the trace of pages fetched so far. -/
def discoverLoop (env : ApiEnv) (filters : JSObj) (maxPages : Nat) :
    Nat → Nat → Nat → List JSObj → List Nat → List JSObj × List Nat
  | 0, _, _, acc, pages => (acc, pages)
  | fuel + 1, page, consecutiveEmptyPages, acc, pages =>
    if page > maxPages then (acc, pages)
    else
      match env.tmdbDiscoverPage page with
      | .error _ =>
        -- catch: a failed page fetch counts toward the empty-page streak
        let c := consecutiveEmptyPages + 1
        if c ≥ 3 then (acc, pages ++ [page])
        else discoverLoop env filters maxPages fuel (page + 1) c acc (pages ++ [page])
      | .ok discoverResult =>
        let resultsV := jsGetProp discoverResult "results"
        let hasResults := truthy resultsV && (arrElems resultsV).length > 0
        let acc2 :=
          if hasResults then acc ++ discoverProcessPage env filters (arrElems resultsV)
          else acc
        let c := if hasResults then 0 else consecutiveEmptyPages + 1
        -- page >= (discoverResult.total_pages || 0)
        let reachedTotal :=
          match jsOr (jsGetProp discoverResult "total_pages") (.num 0) with
          | .num q => decide ((page : Rat) ≥ q)
          | _ => false
        let shouldBreak :=
          !truthy resultsV
          || (match resultsV with
              | .arr xs => decide (xs.length < 20)
              | _ => false)
          || c ≥ 3
          || reachedTotal
        if shouldBreak then (acc2, pages ++ [page])
        else discoverLoop env filters maxPages fuel (page + 1) c acc2 (pages ++ [page])

/-- `MovieFetcher.discoverMovies(filters)`: pages 1 up to
`min(filters.maxPages || 500, 500)`. `maxPagesReq` is the requested page
bound; the genre-dictionary resolution step only shapes the query
parameters already abstracted into the page oracle. The returned pair is
the accumulated result list and the trace of fetched pages. -/
def discoverMoviesModel (env : ApiEnv) (filters : JSObj) (maxPagesReq : Nat) :
    List JSObj × List Nat :=
  if env.tmdbEnabled then
    let maxPages := min maxPagesReq 500
    discoverLoop env filters maxPages (maxPages + 1) 1 0 [] []
  else ([], [])

/-- A discovery source whose every page yields a 2xx response with zero
results out of a nominal 10 pages. -/
def emptyPagesEnv : ApiEnv :=
  ⟨true, true, true,
   fun _ => .error (.transport "unused"),
   fun _ => .error "unused",
   fun _ => .error (.transport "unused"),
   fun _ => .error (.transport "unused"),
   fun _ => .ok (.obj [("results", .arr []), ("total_pages", .num 10),
     ("total_results", .num 0)]),
   fun _ => .error "unused"⟩

/-- A source whose every outbound call fails at the transport layer. -/
def failingEnv (msg : String) : ApiEnv :=
  ⟨true, true, true,
   fun _ => .error (.transport msg),
   fun _ => .error msg,
   fun _ => .error (.transport msg),
   fun _ => .error (.transport msg),
   fun _ => .error (.transport msg),
   fun _ => .error msg⟩

/-- The value at `key` after one `mergeKey` step, as a function of the
accumulated value at that key. -/
def mergeKeyTop (mv : JSValue) (key : String) (cv : JSValue) : JSValue :=
  if presentVal cv then
    if key == "cast" && isArr cv && isArr mv then
      .arr (arrElems mv ++ (arrElems cv).filter fun actor =>
        !(((arrElems mv).map fun a => jsGetProp a "name").any
          fun n => jsEqb n (jsGetProp actor "name")))
    else if key == "other_titles" && isArr cv && isArr mv then
      .arr (arrElems mv ++ arrElems cv)
    else if !truthy mv || jsEqb mv .null || jsEqb mv (.str "") then cv
    else mv
  else mv

/-- The per-record invariant of C7, as an executable check: a single
`source` key holding the given tag, and `cast` and `other_titles` always
arrays. -/
def normalizedRecordOk (tag : String) (r : JSObj) : Bool :=
  jsEqb (getProp r "source") (.str tag)
    && isArr (getProp r "cast")
    && isArr (getProp r "other_titles")
    && ((keysOf r).count "source" == 1)

/-- The value at a field after one string-cleaning step, as a function of
the previous value. -/
def cleanStrTop (v : JSValue) : JSValue :=
  if truthy v then
    match v with
    | .str s => .str (jsTrim s)
    | w => w
  else v

/-- A configuration with every API disabled; the oracles are never
consulted. -/
def disabledEnv : ApiEnv :=
  ⟨false, false, false,
   fun _ => .error (.transport "unused"),
   fun _ => .error "unused",
   fun _ => .error (.transport "unused"),
   fun _ => .error (.transport "unused"),
   fun _ => .error (.transport "unused"),
   fun _ => .error "unused"⟩

/-- A record with an untrimmed title and a null cast, before cleaning. -/
def c10MovieIn : JSObj := [("title", .str "  Example  "), ("cast", .null)]

/-- `cleanMovieData` output for `c10MovieIn`. -/
def c10MovieOut : JSObj :=
  [("title", .str "Example"), ("cast", .arr []), ("other_titles", .arr [])]

/-- A minimal record fed to enrichment. -/
def c10EnrichIn : JSObj := [("cast", .arr [])]

/-- The record enrichment accumulates for `c10EnrichIn` with every API
disabled. -/
def c10EnrichOut : JSObj :=
  [("cast", .arr []), ("sources", .arr []), ("other_titles", .arr [])]

theorem getProp_setProp_self (o : JSObj) (k : String) (v : JSValue) :
    getProp (setProp o k v) k = v := by
  induction o with
  | nil => simp [setProp, getProp]
  | cons p rest ih =>
    obtain ⟨k1, v1⟩ := p
    by_cases h : k1 = k
    · simp [setProp, getProp, h]
    · simp [setProp, getProp, h, ih]

theorem getProp_setProp_ne (o : JSObj) (k : String) (v : JSValue) (key : String)
    (h : k ≠ key) : getProp (setProp o k v) key = getProp o key := by
  induction o with
  | nil => simp [setProp, getProp, h]
  | cons p rest ih =>
    obtain ⟨k1, v1⟩ := p
    by_cases h1 : k1 = k
    · subst h1
      simp [setProp, getProp, h]
    · simp [setProp, getProp, h1, ih]

theorem mem_keysOf_of_getProp (o : JSObj) (k : String)
    (h : getProp o k ≠ .undefined) : k ∈ keysOf o := by
  induction o with
  | nil => simp [getProp] at h
  | cons p rest ih =>
    obtain ⟨k1, v1⟩ := p
    by_cases h1 : k1 = k
    · simp [keysOf, h1]
    · simp only [getProp, if_neg h1] at h
      simp [keysOf, ih h]
      exact Or.inr (by simpa [keysOf] using ih h)

theorem getProp_cleanNumField_ne (o : JSObj) (k : String) (parse : JSValue → JSValue)
    (key : String)
    (h : k ≠ key) : getProp (cleanNumField o k parse) key = getProp o key := by
  unfold cleanNumField
  split
  · exact getProp_setProp_ne o k _ key h
  · rfl

theorem getProp_cleanStrField_ne (o : JSObj) (k key : String)
    (h : k ≠ key) : getProp (cleanStrField o k) key = getProp o key := by
  unfold cleanStrField
  split
  · split
    · exact getProp_setProp_ne o k _ key h
    · rfl
  · rfl

theorem getProp_cleanBoolField_ne (o : JSObj) (k key : String)
    (h : k ≠ key) : getProp (cleanBoolField o k) key = getProp o key := by
  unfold cleanBoolField
  split
  · rfl
  · rfl
  · exact getProp_setProp_ne o k _ key h

theorem getProp_ensureArrField_ne (o : JSObj) (k key : String)
    (h : k ≠ key) : getProp (ensureArrField o k) key = getProp o key := by
  unfold ensureArrField
  split
  · rfl
  · exact getProp_setProp_ne o k _ key h

theorem isArr_ensureArrField_self (o : JSObj) (k : String) :
    isArr (getProp (ensureArrField o k) k) = true := by
  unfold ensureArrField
  split
  · assumption
  · rw [getProp_setProp_self]
    rfl

theorem getProp_strFold_ne (ks : List String) (o : JSObj) (key : String)
    (h : key ∉ ks) : getProp (ks.foldl cleanStrField o) key = getProp o key := by
  induction ks generalizing o with
  | nil => rfl
  | cons k rest ih =>
    simp only [List.foldl_cons]
    have h1 : key ∉ rest := fun hm => h (List.mem_cons_of_mem _ hm)
    have h2 : k ≠ key := fun hk => h (hk ▸ List.mem_cons_self _ _)
    rw [ih _ h1, getProp_cleanStrField_ne _ _ _ h2]

theorem jsParseInt_shape (v : JSValue) :
    (∃ n : Int, jsParseInt v = .num (n : Rat)) ∨ jsParseInt v = .nan := by
  cases v with
  | num q => exact .inl ⟨ratTrunc q, rfl⟩
  | str s =>
    cases h : parseIntPrefix s.data with
    | some n => exact .inl ⟨n, by simp [jsParseInt, h]⟩
    | none => exact .inr (by simp [jsParseInt, h])
  | null => exact .inr rfl
  | undefined => exact .inr rfl
  | nan => exact .inr rfl
  | bool b => exact .inr rfl
  | arr xs => exact .inr rfl
  | obj fs => exact .inr rfl

theorem jsParseFloat_shape (v : JSValue) :
    (∃ q : Rat, jsParseFloat v = .num q) ∨ jsParseFloat v = .nan := by
  cases v with
  | num q => exact .inl ⟨q, rfl⟩
  | str s =>
    cases h : parseFloatPrefix s.data with
    | some q => exact .inl ⟨q, by simp [jsParseFloat, h]⟩
    | none => exact .inr (by simp [jsParseFloat, h])
  | null => exact .inr rfl
  | undefined => exact .inr rfl
  | nan => exact .inr rfl
  | bool b => exact .inr rfl
  | arr xs => exact .inr rfl
  | obj fs => exact .inr rfl

theorem mergeAdoptCond (mv : JSValue) :
    (!truthy mv || jsEqb mv .null || jsEqb mv (.str "")) = !truthy mv := by
  cases mv with
  | str s =>
    by_cases h : s = ""
    · simp [truthy, jsEqb, h]
    · simp [truthy, jsEqb, h]
  | null => rfl
  | undefined => rfl
  | nan => rfl
  | bool b => cases b <;> rfl
  | num q => by_cases h : q = 0 <;> simp [truthy, jsEqb, h]
  | arr xs => cases xs <;> rfl
  | obj fs => cases fs <;> rfl

theorem getProp_mergeKey_self (m : JSObj) (key : String) (cv : JSValue) :
    getProp (mergeKey m key cv) key = mergeKeyTop (getProp m key) key cv := by
  unfold mergeKey mergeKeyTop
  split
  · split
    · rw [getProp_setProp_self]
    · split
      · rw [getProp_setProp_self]
      · split
        · rw [getProp_setProp_self]
        · rfl
  · rfl

theorem getProp_mergeKey_ne (m : JSObj) (k : String) (cv : JSValue) (key : String)
    (h : k ≠ key) : getProp (mergeKey m k cv) key = getProp m key := by
  unfold mergeKey
  split
  · split
    · exact getProp_setProp_ne m k _ key h
    · split
      · exact getProp_setProp_ne m k _ key h
      · split
        · exact getProp_setProp_ne m k _ key h
        · rfl
  · rfl

theorem getProp_mergeFold_ne (cur : JSObj) (ks : List String) (m : JSObj) (key : String)
    (h : key ∉ ks) :
    getProp (ks.foldl (fun acc k2 => mergeKey acc k2 (getProp cur k2)) m) key =
      getProp m key := by
  induction ks generalizing m with
  | nil => rfl
  | cons k rest ih =>
    simp only [List.foldl_cons]
    have h1 : key ∉ rest := fun hm => h (List.mem_cons_of_mem _ hm)
    have h2 : k ≠ key := fun hk => h (hk ▸ List.mem_cons_self _ _)
    rw [ih _ h1, getProp_mergeKey_ne _ _ _ _ h2]

theorem getProp_mergeObj_mem (m cur : JSObj) (key : String)
    (hnd : (keysOf cur).Nodup) (hmem : key ∈ keysOf cur) :
    getProp (mergeObj m cur) key =
      mergeKeyTop (getProp m key) key (getProp cur key) := by
  obtain ⟨l1, l2, hsplit⟩ := List.append_of_mem hmem
  unfold mergeObj
  rw [hsplit] at hnd ⊢
  have hnl : key ∉ l1 ∧ key ∉ l2 := by
    rw [List.nodup_append] at hnd
    obtain ⟨-, hn2, hdisj⟩ := hnd
    exact ⟨fun hm => hdisj hm (List.mem_cons_self _ _),
      (List.nodup_cons.mp hn2).1⟩
  rw [List.foldl_append, List.foldl_cons]
  rw [getProp_mergeFold_ne _ _ _ _ hnl.2, getProp_mergeKey_self,
    getProp_mergeFold_ne _ _ _ _ hnl.1]

theorem foldl_append_eq_join {α β : Type} (f : α → List β) (l : List α)
    (init : List β) :
    l.foldl (fun acc x => acc ++ f x) init = init ++ (l.map f).flatten := by
  induction l generalizing init with
  | nil => simp
  | cons a rest ih =>
    simp only [List.foldl_cons, List.map_cons, List.flatten_cons, ih,
      List.append_assoc]

/-- C1: the claim says `matchesFilters` is a conjunction over all supplied
dimensions, so a record failing the genre filter is rejected regardless of
the country filter. The code instead returns true from the whole function
on a direct country substring match, skipping the genre filter: the movie
with country "Poland" and genre "Drama" fails a genre-only filter for
"action", yet passes as soon as the matching country filter "poland" is
added. -/
theorem claim1_genre_filter_bypassed_by_direct_country_match :
    matchesFilters
      [("country", .str "Poland"), ("genre", .str "Drama")]
      [("genre", .str "action")] = .ok false
    ∧ matchesFilters
      [("country", .str "Poland"), ("genre", .str "Drama")]
      [("country", .str "poland"), ("genre", .str "action")] = .ok true :=
  ⟨rfl, rfl⟩

/-- C2 counterexample: for a mocked source returning zero results (with a
nominal 10 total pages) on every page, discovery fetches only page 1 — the
zero-result page triggers the fewer-than-a-full-page break immediately —
rather than continuing through page 3 as the claim states. -/
theorem claim2_empty_page_stops_discovery_immediately :
    (discoverMoviesModel emptyPagesEnv [] 10).2 = [1]
    ∧ [1] ≠ [1, 2, 3] :=
  ⟨rfl, by decide⟩

/-- C2 amended: a page yielding zero results stops discovery by itself
(discovery of an all-empty 10-page source stops after page 1); the
three-consecutive-empty-pages counter only ever reaches its threshold
through page-level transport failures, where discovery indeed stops after
page 3 instead of aborting on the first failure. -/
theorem claim2_amended_empty_streak_counts_only_failed_pages :
    (discoverMoviesModel emptyPagesEnv [] 10).2 = [1]
    ∧ (discoverMoviesModel (failingEnv "ECONNREFUSED") [] 10).2 = [1, 2, 3] :=
  ⟨rfl, rfl⟩

/-- C3: each adapter delays so that consecutive calls are at least
`1000 / requestsPerSecond` ms apart (at 10 requests per second, at least
100 ms), but the discovery-capable adapter's default is
`rateLimitPerSecond = 40` fed through the same formula, which enforces a
25 ms gap — not the 250 ms (40 requests per 10 seconds) that the claim and
the code's own comment state. -/
theorem claim3_rate_limit_gap_and_tmdb_default_delay :
    (∀ delay lastRequestTime now : Rat,
      lastRequestTime + delay ≤ rateLimitedCallTime delay lastRequestTime now)
    ∧ rateLimitDelay 10 = 100
    ∧ rateLimitDelay omdbDefaultRate = 100
    ∧ rateLimitDelay tmdbDefaultRate = 25
    ∧ rateLimitDelay tmdbDefaultRate ≠ 250
    ∧ rateLimitDelay imdbDefaultRate = 200 := by
  refine ⟨?_, ?_, ?_, ?_, ?_, ?_⟩
  · intro delay last now
    unfold rateLimitedCallTime
    split
    · have : now + (delay - (now - last)) = last + delay := by ring
      rw [this]
    · next h =>
      have : delay ≤ now - last := le_of_not_lt h
      linarith
  · norm_num [rateLimitDelay]
  · norm_num [rateLimitDelay, omdbDefaultRate]
  · norm_num [rateLimitDelay, tmdbDefaultRate]
  · norm_num [rateLimitDelay, tmdbDefaultRate]
  · norm_num [rateLimitDelay, imdbDefaultRate]

/-- C4 counterexample: the claim says a later record's scalar value is
adopted only when the accumulated value is null, undefined or the empty
string. With an accumulated budget of 0 — none of those three — the merge
still adopts the incoming 5000000, because the code's guard is JavaScript
falsiness (`!merged[key]`). -/
theorem claim4_zero_budget_is_overwritten :
    (mergeMovieData [[("budget", .num 0)], [("budget", .num 5000000)]]).map
      (fun M => getProp M "budget") = some (.num 5000000)
    ∧ JSValue.num 0 ≠ .null
    ∧ JSValue.num 0 ≠ .undefined
    ∧ JSValue.num 0 ≠ .str "" := by
  refine ⟨rfl, ?_, ?_, ?_⟩ <;> intro h <;> cases h

/-- C4 amended: in the merge loop a present (non-null, non-undefined,
non-empty-string) non-array incoming value is adopted exactly when the
accumulated value is JavaScript-falsy (null, undefined, empty string, 0,
false or NaN), not only when it is null/undefined/empty-string; the claim's
two instances (first non-empty title wins; a null budget is filled from the
later record) hold as stated. -/
theorem claim4_amended_scalar_adopted_iff_accumulated_falsy :
    (∀ (merged : JSObj) (key : String) (cv : JSValue), isArr cv = false →
      getProp (mergeKey merged key cv) key =
        if presentVal cv && !truthy (getProp merged key) then cv
        else getProp merged key)
    ∧ (mergeMovieData [[("title", .str "R1 title")], [("title", .str "R2 title")]]).map
        (fun M => getProp M "title") = some (.str "R1 title")
    ∧ (mergeMovieData [[("budget", .null)], [("budget", .num 5000000)]]).map
        (fun M => getProp M "budget") = some (.num 5000000) := by
  refine ⟨?_, rfl, rfl⟩
  intro m key cv hcv
  rw [getProp_mergeKey_self]
  unfold mergeKeyTop
  rw [mergeAdoptCond]
  by_cases hp : presentVal cv = true
  · by_cases ht : truthy (getProp m key) = true
    · simp [hcv, hp, ht]
    · simp only [Bool.not_eq_true] at ht
      simp [hcv, hp, ht]
  · simp only [Bool.not_eq_true] at hp
    simp [hp]

/-- C4 witness: the adoption rule applied at the counterexample-adjacent
concrete input — a present incoming 5000000 over a falsy accumulated 0. -/
theorem claim4_amended_witness :
    getProp (mergeKey [("budget", .num 0)] "budget" (.num 5000000)) "budget" =
      .num 5000000 := by
  have h := claim4_amended_scalar_adopted_iff_accumulated_falsy.1
    [("budget", .num 0)] "budget" (.num 5000000) rfl
  rw [h]
  rfl

/-- C5 counterexample: the claim says `sources` is the input-order list of
source tags filtered to non-null. The code filters with `Boolean`, which
also drops the empty string: a record whose source tag is the non-null
empty string loses its tag in the merged `sources`. -/
theorem claim5_empty_string_source_tag_dropped :
    (mergeMovieData [[("source", .str "")], [("source", .str "TMDB")]]).map
      (fun M => getProp M "sources") = some (.arr [.str "TMDB"])
    ∧ JSValue.str "" ≠ .null
    ∧ JSValue.arr [.str "TMDB"] ≠ .arr [.str "", .str "TMDB"] := by
  refine ⟨rfl, ?_, ?_⟩
  · intro h
    cases h
  · intro h
    simp at h

/-- C5 amended: `mergeMovieData` of an empty input is null, and for every
non-empty input the merged `sources` is the input-order list of each
record's `source` value filtered to truthy values (dropping null,
undefined and the empty string). -/
theorem claim5_amended_sources_are_truthy_tags_in_order :
    mergeMovieData ([] : List JSObj) = none
    ∧ ∀ (d : JSObj) (l : List JSObj),
      (mergeMovieData (d :: l)).map (fun M => getProp M "sources") =
        some (.arr (((d :: l).map fun r => getProp r "source").filter truthy)) := by
  refine ⟨rfl, ?_⟩
  intro d l
  refine congrArg some ?_
  exact getProp_setProp_self _ _ _

/-- C6: when both the accumulated and the incoming record hold a cast
array, the merge appends exactly the incoming entries whose `name` is not
already among the accumulated cast names, preserving relative order; in
particular merging cast [A] with cast [A, B] yields exactly one A entry and
one B entry, in that order. -/
theorem claim6_cast_dedup_appends_new_names_in_order :
    (∀ (R1 R2 : JSObj) (xs ys : List JSValue), (keysOf R2).Nodup →
      getProp R1 "cast" = .arr xs → getProp R2 "cast" = .arr ys →
      (mergeMovieData [R1, R2]).map (fun M => getProp M "cast") =
        some (.arr (xs ++ ys.filter fun actor =>
          !((xs.map fun a => jsGetProp a "name").any
            fun n => jsEqb n (jsGetProp actor "name")))))
    ∧ (mergeMovieData
        [[("cast", .arr [.obj [("name", .str "A")]])],
         [("cast", .arr [.obj [("name", .str "A")], .obj [("name", .str "B")]])]]).map
        (fun M => getProp M "cast") =
      some (.arr [.obj [("name", .str "A")], .obj [("name", .str "B")]]) := by
  refine ⟨?_, rfl⟩
  intro R1 R2 xs ys hnd h1 h2
  refine congrArg some ?_
  have hmem : "cast" ∈ keysOf R2 :=
    mem_keysOf_of_getProp _ _ (by rw [h2]; exact fun hh => JSValue.noConfusion hh)
  show getProp (setProp (mergeObj R1 R2) "sources" _) "cast" = _
  rw [getProp_setProp_ne _ _ _ _ (by decide),
    getProp_mergeObj_mem _ _ _ hnd hmem, h1, h2]
  rfl

/-- C6 witness: the dedup rule applied at the claim's concrete instance. -/
theorem claim6_witness :
    (mergeMovieData
      [[("cast", .arr [.obj [("name", .str "A")]])],
       [("cast", .arr [.obj [("name", .str "A")], .obj [("name", .str "B")]])]]).map
      (fun M => getProp M "cast") =
    some (.arr ([.obj [("name", .str "A")]] ++
      ([.obj [("name", .str "A")], .obj [("name", .str "B")]].filter fun actor =>
        !(([.obj [("name", .str "A")]].map fun a => jsGetProp a "name").any
          fun n => jsEqb n (jsGetProp actor "name"))))) :=
  claim6_cast_dedup_appends_new_names_in_order.1
    [("cast", .arr [.obj [("name", .str "A")]])]
    [("cast", .arr [.obj [("name", .str "A")], .obj [("name", .str "B")]])]
    [.obj [("name", .str "A")]]
    [.obj [("name", .str "A")], .obj [("name", .str "B")]]
    (by decide) rfl rfl

/-- C7: whenever an adapter's normalize step produces a record, that record
carries exactly one source tag — `OMDB`, `TMDB` or `IMDB` respectively —
and its `cast` and `other_titles` fields are arrays, even when empty. -/
theorem claim7_normalize_source_tag_and_array_fields :
    (∀ d, Option.all (normalizedRecordOk "OMDB") (omdbNormalize d) = true)
    ∧ (∀ d, Option.all (normalizedRecordOk "TMDB") (tmdbNormalize d) = true)
    ∧ (∀ d, Option.all (normalizedRecordOk "IMDB") (imdbNormalize d) = true) := by
  refine ⟨?_, ?_, ?_⟩
  · intro d
    unfold omdbNormalize
    split
    · rfl
    · rfl
  · intro d
    unfold tmdbNormalize
    split
    · rfl
    · rfl
  · intro d
    unfold imdbNormalize
    split
    · rfl
    · rfl

theorem getProp_cleanStrField_self (o : JSObj) (k : String) :
    getProp (cleanStrField o k) k = cleanStrTop (getProp o k) := by
  unfold cleanStrField cleanStrTop
  split
  · split
    · rw [getProp_setProp_self]
    · rfl
  · rfl

theorem getProp_strFold_mem (ks : List String) (o : JSObj) (key : String)
    (hnd : ks.Nodup) (hmem : key ∈ ks) :
    getProp (ks.foldl cleanStrField o) key = cleanStrTop (getProp o key) := by
  obtain ⟨l1, l2, hsplit⟩ := List.append_of_mem hmem
  rw [hsplit] at hnd ⊢
  have hnl : key ∉ l1 ∧ key ∉ l2 := by
    rw [List.nodup_append] at hnd
    obtain ⟨-, hn2, hdisj⟩ := hnd
    exact ⟨fun hm => hdisj hm (List.mem_cons_self _ _),
      (List.nodup_cons.mp hn2).1⟩
  rw [List.foldl_append, List.foldl_cons]
  rw [getProp_strFold_ne _ _ _ hnl.2, getProp_cleanStrField_self,
    getProp_strFold_ne _ _ _ hnl.1]

theorem discoverLoop_failing_acc (msg : String) (filters : JSObj)
    (maxPages : Nat) :
    ∀ (fuel page c : Nat) (pages : List Nat),
      (discoverLoop (failingEnv msg) filters maxPages fuel page c [] pages).1 = [] := by
  intro fuel
  induction fuel with
  | zero => intro page c pages; rfl
  | succ n ih =>
    intro page c pages
    unfold discoverLoop
    by_cases h : page > maxPages
    · rw [if_pos h]
    · rw [if_neg h]
      show (if c + 1 ≥ 3 then (([] : List JSObj), pages ++ [page])
        else discoverLoop (failingEnv msg) filters maxPages n (page + 1) (c + 1)
          [] (pages ++ [page])).1 = []
      split
      · rfl
      · exact ih _ _ _

/-- C8 counterexample: the claim says every adapter's detail lookup raises
on an explicit not-found response. The IMDB adapter's `getMovieDetails`
never raises: a 2xx not-found payload is returned as a success value, and
even a connection-refused transport failure is swallowed into a returned
null. -/
theorem claim8_imdb_not_found_returns_success_value :
    imdbGetMovieDetails (.ok (.obj [("message", .str "Title not found")])) =
      .ok (.obj [("message", .str "Title not found")])
    ∧ imdbGetMovieDetails (.error "connect ECONNREFUSED") = .ok .null :=
  ⟨rfl, rfl⟩

/-- C8 amended: only the OMDB adapter normalizes the 2xx not-found sentinel
(`Response === 'False'`) into a thrown plain error, which is a different
error kind from the transport error and carries the payload's `Error`
message; the TMDB adapter returns 2xx payloads unvalidated, and the IMDB
adapter's `getMovieDetails` never raises at all. -/
theorem claim8_amended_only_omdb_raises_sentinel_errors :
    (∀ data, jsEqb (jsGetProp data "Response") (.str "False") = true →
      omdbRateLimitedRequest (.ok data) =
        .error (.apiError (jsOr (jsGetProp data "Error")
          (.str "Unknown OMDB API Error"))))
    ∧ (∀ msg, omdbRateLimitedRequest (.error msg) = .error (.transport msg))
    ∧ (∀ v msg, ApiError.apiError v ≠ .transport msg)
    ∧ (∀ t e, imdbGetMovieDetails t ≠ .error e)
    ∧ (∀ data, tmdbRateLimitedRequest (.ok data) = .ok data) := by
  refine ⟨?_, fun msg => rfl, ?_, ?_, fun data => rfl⟩
  · intro data h
    unfold omdbRateLimitedRequest
    simp [h]
  · intro v msg h
    exact ApiError.noConfusion h
  · intro t e h
    cases t with
    | ok d => exact Except.noConfusion h
    | error msg => exact Except.noConfusion h

/-- C8 witness: the OMDB sentinel conversion applied to a concrete
not-found payload. -/
theorem claim8_amended_witness :
    omdbRateLimitedRequest
      (.ok (.obj [("Response", .str "False"), ("Error", .str "Movie not found!")])) =
      .error (.apiError (.str "Movie not found!")) :=
  claim8_amended_only_omdb_raises_sentinel_errors.1
    (.obj [("Response", .str "False"), ("Error", .str "Movie not found!")]) rfl

/-- C9: per-item adapter failures never escape the three workflow
operations: a title whose adapter calls all fail is simply skipped (the
remaining titles' results are unchanged), a discovery run whose every page
fetch fails returns the empty list rather than raising, and enrichment
always returns exactly one best-effort record per input record no matter
how the oracles behave. -/
theorem claim9_workflows_skip_per_item_failures :
    (∀ (env : ApiEnv) (filters : JSObj) (t : String) (ts : List String)
        (e1 e2 : ApiError),
      env.omdbGetByTitle t = .error e1 → env.tmdbSearch (.str t) = .error e2 →
      fetchMoviesByTitlesModel env filters (t :: ts) =
        fetchMoviesByTitlesModel env filters ts)
    ∧ (∀ (filters : JSObj) (maxPagesReq : Nat) (msg : String),
      (discoverMoviesModel (failingEnv msg) filters maxPagesReq).1 = [])
    ∧ (∀ (env : ApiEnv) (movies : List JSObj),
      (enrichMovieDataModel env movies).length = movies.length) := by
  refine ⟨?_, ?_, ?_⟩
  · intro env filters t ts e1 e2 h1 h2
    have hstep : fetchTitleStep env filters t = [] := by
      simp [fetchTitleStep, searchMoviesByTitleModel, h1, h2]
    simp [fetchMoviesByTitlesModel, List.foldl_cons, hstep]
  · intro filters maxPagesReq msg
    exact discoverLoop_failing_acc msg filters (min maxPagesReq 500)
      (min maxPagesReq 500 + 1) 1 0 []
  · intro env movies
    unfold enrichMovieDataModel
    rw [foldl_append_eq_join]
    simp only [List.nil_append]
    induction movies with
    | nil => rfl
    | cons m ms ih =>
      simp only [List.map_cons, List.flatten_cons, List.length_append, ih,
        List.length_cons]
      rw [show (enrichStep env m).length = 1 from rfl]
      omega

/-- C9 witness: a title whose adapter calls all fail at the transport layer
is skipped without aborting the workflow. -/
theorem claim9_witness :
    fetchMoviesByTitlesModel (failingEnv "ECONNREFUSED") [] ["a", "b"] =
      fetchMoviesByTitlesModel (failingEnv "ECONNREFUSED") [] ["b"] :=
  claim9_workflows_skip_per_item_failures.1 (failingEnv "ECONNREFUSED") [] "a" ["b"]
    (.transport "ECONNREFUSED") (.transport "ECONNREFUSED") rfl rfl


theorem cleanNumField_int (o : JSObj) (k : String)
    (htr : truthy (getProp (cleanNumField o k jsParseInt) k) = true) :
    ∃ n : Int, getProp (cleanNumField o k jsParseInt) k = .num (n : Rat) := by
  unfold cleanNumField at htr ⊢
  by_cases hm : truthy (getProp o k) = true
  · rw [if_pos hm, getProp_setProp_self] at htr ⊢
    rcases jsParseInt_shape (getProp o k) with ⟨n, hn⟩ | hn
    · exact ⟨n, hn⟩
    · rw [hn] at htr
      exact absurd htr (by decide)
  · rw [if_neg hm] at htr ⊢
    exact absurd htr hm

theorem cleanNumField_float (o : JSObj) (k : String)
    (htr : truthy (getProp (cleanNumField o k jsParseFloat) k) = true) :
    ∃ q : Rat, getProp (cleanNumField o k jsParseFloat) k = .num q := by
  unfold cleanNumField at htr ⊢
  by_cases hm : truthy (getProp o k) = true
  · rw [if_pos hm, getProp_setProp_self] at htr ⊢
    rcases jsParseFloat_shape (getProp o k) with ⟨q, hn⟩ | hn
    · exact ⟨q, hn⟩
    · rw [hn] at htr
      exact absurd htr (by decide)
  · rw [if_neg hm] at htr ⊢
    exact absurd htr hm

theorem fetchTitleStep_factor (env : ApiEnv) (filters : JSObj) (t : String)
    (r : JSObj) (hrl : r ∈ fetchTitleStep env filters t) :
    ∃ m c, cleanMovieData (some m) = some c ∧ r = c := by
  unfold fetchTitleStep at hrl
  by_cases hlen : (searchMoviesByTitleModel env t).length > 0
  · rw [if_pos hlen] at hrl
    cases hmg : mergeMovieData (searchMoviesByTitleModel env t) with
    | none =>
      rw [hmg] at hrl
      have h0 : r ∈ ([] : List JSObj) := hrl
      exact absurd h0 (List.not_mem_nil r)
    | some m =>
      rw [hmg] at hrl
      cases hcl : cleanMovieData (some m) with
      | none =>
        rw [hcl] at hrl
        have h0 : r ∈ ([] : List JSObj) := hrl
        exact absurd h0 (List.not_mem_nil r)
      | some c =>
        rw [hcl] at hrl
        have hrl2 : r ∈ (match matchesFilters c filters with
          | .ok true => [c]
          | .ok false => []
          | .error _ => ([] : List JSObj)) := hrl
        cases hf : matchesFilters c filters with
        | error e =>
          rw [hf] at hrl2
          have h0 : r ∈ ([] : List JSObj) := hrl2
          exact absurd h0 (List.not_mem_nil r)
        | ok b =>
          cases b with
          | false =>
            rw [hf] at hrl2
            have h0 : r ∈ ([] : List JSObj) := hrl2
            exact absurd h0 (List.not_mem_nil r)
          | true =>
            rw [hf] at hrl2
            have h1 : r ∈ [c] := hrl2
            exact ⟨m, c, hcl, List.mem_singleton.mp h1⟩
  · rw [if_neg hlen] at hrl
    have h0 : r ∈ ([] : List JSObj) := hrl
    exact absurd h0 (List.not_mem_nil r)

theorem enrichStep_factor (env : ApiEnv) (mv : JSObj) (r : JSObj)
    (hrl : r ∈ enrichStep env mv) :
    ∃ m c, cleanMovieData (some m) = some c ∧ r = c := by
  unfold enrichStep at hrl
  cases hmg : mergeMovieData (enrichGather env mv) with
  | none =>
    rw [hmg] at hrl
    have h0 : r ∈ ([] : List JSObj) := hrl
    exact absurd h0 (List.not_mem_nil r)
  | some m =>
    rw [hmg] at hrl
    cases hcl : cleanMovieData (some m) with
    | none =>
      rw [hcl] at hrl
      have h0 : r ∈ ([] : List JSObj) := hrl
      exact absurd h0 (List.not_mem_nil r)
    | some c =>
      rw [hcl] at hrl
      have h1 : r ∈ [c] := hrl
      exact ⟨m, c, hcl, List.mem_singleton.mp h1⟩

/-- C10: every record accumulated by `fetchMoviesByTitles` or (through its
merge-and-clean path) `enrichMovieData` is an output of `cleanMovieData`,
and `cleanMovieData` output has array `cast` and `other_titles` (empty
arrays when the input field was not an array), integer-valued
`release_year`, `release_month`, `release_day` and `runtime_min` whenever
truthy, numeric `budget` and `gross_worldwide_boxoffice` whenever truthy,
and whitespace-trimmed values for the listed string fields that held a
non-empty string. -/
theorem claim10_cleaned_records_at_public_interface :
    (∀ (m c : JSObj), cleanMovieData (some m) = some c →
      isArr (getProp c "cast") = true
      ∧ isArr (getProp c "other_titles") = true
      ∧ (∀ k, k ∈ ["release_year", "release_month", "release_day", "runtime_min"] →
          truthy (getProp c k) = true → ∃ n : Int, getProp c k = .num (n : Rat))
      ∧ (∀ k, k ∈ ["budget", "gross_worldwide_boxoffice"] →
          truthy (getProp c k) = true → ∃ q : Rat, getProp c k = .num q)
      ∧ (∀ k, k ∈ cleanStringFields → ∀ s, getProp m k = .str s → s ≠ "" →
          getProp c k = .str (jsTrim s)))
    ∧ (∀ (env : ApiEnv) (filters : JSObj) (titles : List String) (r : JSObj),
        r ∈ fetchMoviesByTitlesModel env filters titles →
        ∃ m c, cleanMovieData (some m) = some c ∧ r = c)
    ∧ (∀ (env : ApiEnv) (movies : List JSObj) (r : JSObj),
        r ∈ enrichMovieDataModel env movies →
        ∃ m c, cleanMovieData (some m) = some c ∧ r = c) := by
  refine ⟨?_, ?_, ?_⟩
  · intro m c h
    have hc := Option.some.inj h
    subst hc
    refine ⟨?_, ?_, ?_, ?_, ?_⟩
    · rw [getProp_ensureArrField_ne _ _ _ (by decide)]
      exact isArr_ensureArrField_self _ _
    · exact isArr_ensureArrField_self _ _
    · intro k hk htr
      fin_cases hk <;>
      · rw [getProp_ensureArrField_ne _ _ _ (by decide),
          getProp_ensureArrField_ne _ _ _ (by decide),
          getProp_strFold_ne _ _ _ (by decide),
          getProp_cleanBoolField_ne _ _ _ (by decide)] at htr ⊢
        repeat rw [getProp_cleanNumField_ne _ _ _ _ (by decide)] at htr ⊢
        exact cleanNumField_int _ _ htr
    · intro k hk htr
      fin_cases hk <;>
      · rw [getProp_ensureArrField_ne _ _ _ (by decide),
          getProp_ensureArrField_ne _ _ _ (by decide),
          getProp_strFold_ne _ _ _ (by decide),
          getProp_cleanBoolField_ne _ _ _ (by decide)] at htr ⊢
        repeat rw [getProp_cleanNumField_ne _ _ _ _ (by decide)] at htr ⊢
        exact cleanNumField_float _ _ htr
    · intro k hk s hs hne
      have hb : (s == "") = false := by
        simp only [beq_eq_false_iff_ne, ne_eq]
        exact hne
      fin_cases hk <;>
      · rw [getProp_ensureArrField_ne _ _ _ (by decide),
          getProp_ensureArrField_ne _ _ _ (by decide),
          getProp_strFold_mem _ _ _ (by decide) (by decide),
          getProp_cleanBoolField_ne _ _ _ (by decide)]
        repeat rw [getProp_cleanNumField_ne _ _ _ _ (by decide)]
        rw [hs]
        simp [cleanStrTop, truthy, hb]
  · intro env filters titles r hr
    unfold fetchMoviesByTitlesModel at hr
    rw [foldl_append_eq_join] at hr
    simp only [List.nil_append] at hr
    rcases List.mem_flatten.mp hr with ⟨l, hl, hrl⟩
    rcases List.mem_map.mp hl with ⟨t, -, rfl⟩
    exact fetchTitleStep_factor env filters t r hrl
  · intro env movies r hr
    unfold enrichMovieDataModel at hr
    rw [foldl_append_eq_join] at hr
    simp only [List.nil_append] at hr
    rcases List.mem_flatten.mp hr with ⟨l, hl, hrl⟩
    rcases List.mem_map.mp hl with ⟨mv, -, rfl⟩
    exact enrichStep_factor env mv r hrl

/-- C10 witness: the cleaning properties applied at a concrete record
(trimmed title), and the factorization applied to a concrete record
produced by the enrichment workflow. -/
theorem claim10_witness :
    getProp c10MovieOut "title" = .str (jsTrim "  Example  ")
    ∧ isArr (getProp c10EnrichOut "cast") = true := by
  constructor
  · exact (claim10_cleaned_records_at_public_interface.1 c10MovieIn c10MovieOut
      rfl).2.2.2.2 "title" (by decide) "  Example  " rfl (by decide)
  · obtain ⟨m, c, h1, h2⟩ :=
      claim10_cleaned_records_at_public_interface.2.2 disabledEnv [c10EnrichIn]
        c10EnrichOut (by exact List.mem_singleton.mpr rfl)
    rw [h2]
    exact (claim10_cleaned_records_at_public_interface.1 m c h1).1
